import Mathlib

/-!
Shallow embedding of `train.py` of the ELECTRA-Pytorch repository, together
with theorems settling the specification claims about it.

Conventions of the embedding:
* JSON numbers and tensor entries are modelled as rationals (`ℚ`).
* Tensors are nested lists; a batch is the seven-tuple of tensors the data
  iterator yields, modelled as a structure with the source's field order.
* External collaborators (the model forward pass, the two cross-entropy
  criteria, the optimizers, the metrics writer) are parameters: the loss
  functions are modelled as functions of those collaborators, and the
  training loops as traces of the bookkeeping events they perform.
* Python attribute errors and call-arity errors are modelled explicitly
  where a claim is about them: a class is summarised by the list of
  attribute names its `__init__` sets, and a method body by the ordered
  list of actions it performs, each tagged with the `self` attributes it
  reads.
-/

namespace Electra

/-- Hyperparameters for training, mirroring `Config` in `train.py`
(lines 17-27): a `NamedTuple` in which every field carries a default value.
JSON numbers are modelled as rationals; `5e-5 = 5/100000`, `0.1 = 1/10`. -/
structure Config where
  seed : ℚ := 3431
  batch_size : ℚ := 8
  lr : ℚ := 5 / 100000
  n_epochs : ℚ := 10
  warmup : ℚ := 1 / 10
  save_steps : ℚ := 100
  total_steps : ℚ := 100000
deriving DecidableEq, Repr

/-- The field names of `Config`, in declaration order. -/
def Config.fieldNames : List String :=
  ["seed", "batch_size", "lr", "n_epochs", "warmup", "save_steps", "total_steps"]

/-- Binding one keyword argument of the `Config` constructor: `none` when the
key names no field (Python raises `TypeError` for an unexpected keyword). -/
def Config.setField (c : Config) (kv : String × ℚ) : Option Config :=
  if kv.1 = "seed" then some { c with seed := kv.2 }
  else if kv.1 = "batch_size" then some { c with batch_size := kv.2 }
  else if kv.1 = "lr" then some { c with lr := kv.2 }
  else if kv.1 = "n_epochs" then some { c with n_epochs := kv.2 }
  else if kv.1 = "warmup" then some { c with warmup := kv.2 }
  else if kv.1 = "save_steps" then some { c with save_steps := kv.2 }
  else if kv.1 = "total_steps" then some { c with total_steps := kv.2 }
  else none

/-- `Config.from_json` (train.py lines 29-31): `cls(**json.load(open(file)))`.
The parsed JSON object is modelled as an association list of key/number
pairs. Keyword expansion binds each key in turn, failing exactly when some
key names no `Config` field; every field absent from the object keeps its
declared default. -/
def Config.from_json (kvs : List (String × ℚ)) : Option Config :=
  kvs.foldlM Config.setField {}

/-! ## Tensors, batches and the two loss functions -/

/-- A rank-3 tensor (sample × position × vocab) of rationals. -/
abbrev Tensor3 := List (List (List ℚ))

/-- A rank-2 tensor of rationals. -/
abbrev Tensor2 := List (List ℚ)

/-- The seven-tensor batch the data iterator yields (train.py line 34):
`input_ids, segment_ids, input_mask, masked_ids, masked_pos, masked_weights,
is_next`. Index 3 of the tuple is `masked_ids`. Integer tensors are nested
lists of naturals. -/
structure Batch where
  input_ids : List (List ℕ)
  segment_ids : List (List ℕ)
  input_mask : List (List ℕ)
  masked_ids : List (List ℕ)
  masked_pos : List (List ℕ)
  masked_weights : List (List ℕ)
  is_next : List ℕ
deriving DecidableEq, Repr

/-- The model forward pass, an external collaborator: from
`(input_ids, segment_ids, input_mask, masked_pos)` it produces
`(logits_lm, logits_clsf)` (train.py lines 35, 53). -/
abbrev ModelFn := List (List ℕ) → List (List ℕ) → List (List ℕ) →
  List (List ℕ) → Tensor3 × Tensor2

/-- The per-token criterion `nn.CrossEntropyLoss(reduction='none')` restricted
to one class-dimension slice: from a vector of logits over the vocabulary and
a target id it produces a loss value. External collaborator. -/
abbrev TokenCE := List ℚ → ℕ → ℚ

/-- The sentence criterion `nn.CrossEntropyLoss()` (mean reduction): from the
classification logits and the `is_next` targets it produces one scalar.
External collaborator. -/
abbrev SentCE := Tensor2 → List ℕ → ℚ

/-- Matrix transpose on a list of rows, the width read off the first row (the
shape a tensor carries). Models `Tensor.transpose(1, 2)` applied to one
sample of a (sample, position, vocab) tensor. -/
def transposeMat (m : Tensor2) : Tensor2 :=
  (List.range (m.headD []).length).map fun j => m.map fun row => row.getD j 0

/-- `logits_lm.transpose(1, 2)`: swap the position and vocab axes of every
sample (train.py lines 36, 54). -/
def transpose12 (t : Tensor3) : Tensor3 := t.map transposeMat

/-- `nn.CrossEntropyLoss(reduction='none')` on an input of shape
(sample, class, position) against targets of shape (sample, position): the
loss at (n, j) is the per-token criterion applied to the class column at
position j of sample n, i.e. to row j of the transposed (class, position)
matrix. -/
def crossEntNone (ce : TokenCE) (input : Tensor3) (target : List (List ℕ)) :
    Tensor2 :=
  List.zipWith (fun mat tgt => List.zipWith ce (transposeMat mat) tgt)
    input target

/-- Elementwise product of two rank-2 tensors. -/
def elemMul (a b : Tensor2) : Tensor2 := List.zipWith (List.zipWith (· * ·)) a b

/-- `masked_weights.float()`: an integer tensor cast to rationals. -/
def natMat (m : List (List ℕ)) : Tensor2 := m.map fun r => r.map fun x => (x : ℚ)

/-- `Tensor.mean()`: the sum of all entries divided by their number. -/
def meanAll (m : Tensor2) : ℚ := (m.map List.sum).sum / (m.map List.length).sum

/-- `generator_loss` (train.py lines 33-48). The model and the two criteria
are external collaborators passed as functions; the optional `writer` only
logs scalars and never changes the returned value, so it is left to the
attribute-access model below. Returns
`(loss_lm + loss_sop, logits_lm, loss_sop)` where `loss_lm` is the
`reduction='none'` cross-entropy of the transposed masked-LM logits against
`masked_ids`, multiplied elementwise by `masked_weights.float()`, then
averaged by `.mean()`. -/
def generator_loss (model : ModelFn) (batch : Batch) (cross_ent : TokenCE)
    (sent_cross_ent : SentCE) : ℚ × Tensor3 × ℚ :=
  let fwd := model batch.input_ids batch.segment_ids batch.input_mask
    batch.masked_pos
  let logits_lm := fwd.1
  let logits_clsf := fwd.2
  let loss_lm :=
    meanAll (elemMul (crossEntNone cross_ent (transpose12 logits_lm)
      batch.masked_ids) (natMat batch.masked_weights))
  let loss_sop := sent_cross_ent logits_clsf batch.is_next
  (loss_lm + loss_sop, logits_lm, loss_sop)

/-- `discriminator_loss` (train.py lines 51-66): the same computation as
`generator_loss` (the source bodies differ only in the writer's log key). -/
def discriminator_loss (model : ModelFn) (batch : Batch) (cross_ent : TokenCE)
    (sent_cross_ent : SentCE) : ℚ × Tensor3 × ℚ :=
  let fwd := model batch.input_ids batch.segment_ids batch.input_mask
    batch.masked_pos
  let logits_lm := fwd.1
  let logits_clsf := fwd.2
  let loss_lm :=
    meanAll (elemMul (crossEntNone cross_ent (transpose12 logits_lm)
      batch.masked_ids) (natMat batch.masked_weights))
  let loss_sop := sent_cross_ent logits_clsf batch.is_next
  (loss_lm + loss_sop, logits_lm, loss_sop)

/-- The masked-LM loss the way the spec words it: the per-token cross-entropy
at each (sample, position), weighted elementwise by `masked_weights`, then
averaged over all entries. -/
def mlmLossSpec (ce : TokenCE) (logits_lm : Tensor3)
    (masked_ids masked_weights : List (List ℕ)) : ℚ :=
  meanAll (elemMul
    (List.zipWith (fun rows ids => List.zipWith ce rows ids) logits_lm
      masked_ids)
    (natMat masked_weights))

/-! ## The discriminator sub-step of `AdversarialTrainer.train` -/

/-- `torch.argmax` along the vocab axis at one position: the index of the
first maximal entry (a later entry displaces the current best only when
strictly greater). -/
def argmaxIdx (l : List ℚ) : ℕ :=
  (l.enum.foldl (fun best p => if best.2 < p.2 then p else best)
    (0, l.headD 0)).1

/-- Lines 198-201 of train.py: `loss_lm = torch.argmax(loss_lm, axis=2)`
(the variable holds the generator's raw masked-LM logits) followed by
`is_replaced = (loss_lm == masked_ids).long()`: the entry at each
(sample, position) is 1 when the arg-max token id equals the true masked id
there, else 0. -/
def isReplacedLabels (logits_lm : Tensor3) (masked_ids : List (List ℕ)) :
    List (List ℕ) :=
  List.zipWith
    (fun rows ids => List.zipWith
      (fun row id => if argmaxIdx row = id then 1 else 0) rows ids)
    logits_lm masked_ids

/-- The discriminator sub-step's data flow (train.py lines 196-207): derive
the `is_replaced` labels from the generator's masked-LM logits, overwrite
index 3 of the batch (`masked_ids`) with them, and compute
`discriminator_loss` on the mutated batch. Returns the mutated batch and
the discriminator loss triple. -/
def discSubStep (disc : ModelFn) (b : Batch) (logits_lm : Tensor3)
    (ce : TokenCE) (sce : SentCE) : Batch × (ℚ × Tensor3 × ℚ) :=
  let b2 := { b with masked_ids := isReplacedLabels logits_lm b.masked_ids }
  (b2, discriminator_loss disc b2 ce sce)

/-- One adversarial batch's data flow (train.py lines 182-211), the
collaborator calls modelled as succeeding: generator loss on the batch,
then the discriminator sub-step fed the second component of the generator
loss triple (the raw masked-LM logits). Returns (generator loss triple,
mutated batch, discriminator loss triple). -/
def advBatchDataFlow (gen disc : ModelFn) (b : Batch) (ce : TokenCE)
    (sce : SentCE) : (ℚ × Tensor3 × ℚ) × Batch × (ℚ × Tensor3 × ℚ) :=
  let g := generator_loss gen b ce sce
  let d := discSubStep disc b g.2.1 ce sce
  (g, d.1, d.2)

/-! ## The epoch/step bookkeeping of the two training loops -/

/-- The loop bookkeeping parameters of a run, as `Trainer.train` and
`AdversarialTrainer.train` read them from `self.cfg`: integer-valued
`n_epochs`, `save_steps` and `total_steps` (`total_steps = 0` is
Python-falsy, so it disables early termination; the number of batches the
data iterator yields per epoch is the separate parameter `nb` below). -/
structure RunCfg where
  n_epochs : ℕ
  save_steps : ℕ
  total_steps : ℕ
deriving DecidableEq, Repr

/-- A bookkeeping event of a training run: a processed batch, tagged with
the value of `global_step` just after its increment, or a checkpoint save
`self.save(global_step)`. -/
inductive Ev where
  | batch (step : ℕ)
  | save (step : ℕ)
deriving DecidableEq, Repr

/-- The inner batch loop of `Trainer.train` for one epoch (train.py lines
93-112), the per-batch collaborator calls (loss, backward, optimizer step)
modelled as succeeding. Arguments: batches remaining in the epoch, current
`global_step`. Returns the events of the rest of the epoch, the final
`global_step`, and whether the `total_steps` early `return` fired. Per
batch: increment `global_step` (line 101), save when
`global_step % save_steps == 0` (lines 105-106), then if
`total_steps and total_steps < global_step` save again and return (lines
108-112). -/
def trainerEpoch (cfg : RunCfg) : ℕ → ℕ → List Ev × ℕ × Bool
  | 0, gs => ([], gs, false)
  | n + 1, gs =>
    let gs1 := gs + 1
    let evs := Ev.batch gs1 ::
      (if gs1 % cfg.save_steps = 0 then [Ev.save gs1] else [])
    if cfg.total_steps ≠ 0 ∧ cfg.total_steps < gs1 then
      (evs ++ [Ev.save gs1], gs1, true)
    else
      let rest := trainerEpoch cfg n gs1
      (evs ++ rest.1, rest.2.1, rest.2.2)

/-- The epoch loop of `Trainer.train` (train.py lines 90-115): runs the
remaining epochs of `nb` batches each from the current `global_step`; after
the last epoch the final `self.save(global_step)` of line 115 runs, unless
the early `return` already ended the run inside an epoch. -/
def trainerEpochs (cfg : RunCfg) (nb : ℕ) : ℕ → ℕ → List Ev
  | 0, gs => [Ev.save gs]
  | e + 1, gs =>
    let ep := trainerEpoch cfg nb gs
    if ep.2.2 then ep.1 else ep.1 ++ trainerEpochs cfg nb e ep.2.1

/-- `Trainer.train` as a trace of bookkeeping events: `global_step = 0`
(line 89), then the epoch loop over `cfg.n_epochs` epochs. -/
def trainerRun (cfg : RunCfg) (nb : ℕ) : List Ev :=
  trainerEpochs cfg nb cfg.n_epochs 0

/-- The inner batch loop of `AdversarialTrainer.train` for one epoch
(train.py lines 179-222), the per-batch collaborator calls modelled as
succeeding. The bookkeeping mirrors `Trainer.train` line for line:
increment at line 193, periodic save at lines 215-216, early save and
return at lines 218-222. -/
def advEpoch (cfg : RunCfg) : ℕ → ℕ → List Ev × ℕ × Bool
  | 0, gs => ([], gs, false)
  | n + 1, gs =>
    let gs1 := gs + 1
    let evs := Ev.batch gs1 ::
      (if gs1 % cfg.save_steps = 0 then [Ev.save gs1] else [])
    if cfg.total_steps ≠ 0 ∧ cfg.total_steps < gs1 then
      (evs ++ [Ev.save gs1], gs1, true)
    else
      let rest := advEpoch cfg n gs1
      (evs ++ rest.1, rest.2.1, rest.2.2)

/-- The epoch loop of `AdversarialTrainer.train` (train.py lines 176-225),
the final save of line 225 included. -/
def advEpochs (cfg : RunCfg) (nb : ℕ) : ℕ → ℕ → List Ev
  | 0, gs => [Ev.save gs]
  | e + 1, gs =>
    let ep := advEpoch cfg nb gs
    if ep.2.2 then ep.1 else ep.1 ++ advEpochs cfg nb e ep.2.1

/-- `AdversarialTrainer.train` as a trace of bookkeeping events:
`global_step = 0` (line 175), then the epoch loop. -/
def advRun (cfg : RunCfg) (nb : ℕ) : List Ev :=
  advEpochs cfg nb cfg.n_epochs 0

/-- The `global_step` values of the processed-batch events of a trace, in
order. -/
def batchSteps (evs : List Ev) : List ℕ :=
  evs.filterMap fun e => match e with
    | Ev.batch s => some s
    | Ev.save _ => none

/-! ## Attribute accesses and call arity -/

/-- One action of a method body, tagged with the `self` attribute lookups it
performs before running. -/
structure Action where
  name : String
  attrs : List String
deriving DecidableEq, Repr

/-- The attributes `AdversarialTrainer.__init__` sets on `self` (train.py
lines 151-161): no `model` and no `writer` among them. -/
def advInitAttrs : List String :=
  ["cfg", "discriminator", "generator", "data_iter", "d_optimizer",
   "g_optimizer", "save_dir", "device", "cross_ent", "sent_cross_ent"]

/-- The attributes `Trainer.__init__` sets on `self` (train.py lines
71-77). -/
def trainerInitAttrs : List String :=
  ["cfg", "model", "data_iter", "optimizer", "save_dir", "device"]

/-- The first attribute of `reads` absent from `init`: the lookup at which
Python raises `AttributeError`, executing the reads in order. -/
def firstMissingAttr (init reads : List String) : Option String :=
  reads.find? fun s => !(init.contains s)

/-- Run a method body until an action's attribute lookups hit one absent
from `init` (Python raises `AttributeError` there): returns the names of
the actions that completed and the first missing attribute, if any. -/
def runActions (init : List String) : List Action → List String × Option String
  | [] => ([], none)
  | a :: rest =>
    match firstMissingAttr init a.attrs with
    | some missing => ([], some missing)
    | none =>
      let r := runActions init rest
      (a.name :: r.1, r.2)

/-- The per-batch body of `AdversarialTrainer.train` (train.py lines
180-222) on the default `data_parallel=False` path, as ordered actions
tagged with the `self` attribute lookups each performs. Python evaluates a
call's arguments before the call runs, so the attribute arguments of the
generator-loss call of lines 183-187 — among them `self.writer` — are
looked up before `generator_loss` (and through it the metrics writer) could
run. Note the absence of any `d_loss.backward` action: lines 204-211 go
from the discriminator-loss call to `self.d_optimizer.step()` without a
backward call. -/
def advTrainBatchActions : List Action :=
  [⟨"batch_to_device", ["device"]⟩,
   ⟨"g_optimizer.zero_grad", ["g_optimizer"]⟩,
   ⟨"generator_loss", ["g_optimizer", "cross_ent", "sent_cross_ent",
     "writer"]⟩,
   ⟨"g_loss.backward", []⟩,
   ⟨"g_optimizer.step", ["g_optimizer"]⟩,
   ⟨"increment_global_step", []⟩,
   ⟨"accumulate_loss_sum", []⟩,
   ⟨"loss_lm.detach", []⟩,
   ⟨"d_optimizer.zero_grad", ["d_optimizer"]⟩,
   ⟨"read_batch_index_3", []⟩,
   ⟨"argmax_logits", []⟩,
   ⟨"is_replaced_to_device", ["device"]⟩,
   ⟨"mutate_batch_index_3", []⟩,
   ⟨"discriminator_loss", ["d_optimizer", "cross_ent", "sent_cross_ent",
     "writer"]⟩,
   ⟨"d_optimizer.step", ["d_optimizer"]⟩,
   ⟨"set_description", []⟩,
   ⟨"periodic_save_check", ["cfg"]⟩,
   ⟨"total_steps_check", ["cfg"]⟩]

/-- The `self` attribute lookups of `AdversarialTrainer.save` in execution
order (train.py lines 252-256): `torch.save(self.model, ...)` evaluates
`self.model` before `self.save_dir`. -/
def advSaveAttrReads : List String := ["model", "save_dir", "model",
  "save_dir"]

/-- The `self` attribute lookups of `AdversarialTrainer.eval` in execution
order (train.py lines 227-244), starting with `self.model.eval()` at line
229. -/
def advEvalAttrReads : List String := ["model", "data_iter", "device"]

/-- A Python signature summarised by its positional parameters: how many
lack defaults and how many carry defaults. -/
structure PySig where
  required : ℕ
  defaulted : ℕ
deriving DecidableEq, Repr

/-- The shared signature of `generator_loss` and `discriminator_loss`
(train.py lines 33, 51): six required positional parameters
(`model, batch, global_step, optimizer, cross_ent, sent_cross_ent`) and two
defaulted ones (`writer`, the log-key string). -/
def lossSig : PySig := ⟨6, 2⟩

/-- Whether a call passing `n` positional arguments and no keywords binds a
signature without raising `TypeError`. -/
def callBinds (sig : PySig) (n : ℕ) : Bool :=
  decide (sig.required ≤ n) && decide (n ≤ sig.required + sig.defaulted)

/-- The number of positional arguments `Trainer.train` passes to
`discriminator_loss` at line 97: `model, batch, global_step,
self.optimizer`. -/
def trainerLossCallArgCount : ℕ := 4

/-- The number of positional arguments `AdversarialTrainer.train` passes to
`generator_loss` (lines 183-187) and to `discriminator_loss` (lines
204-207): model, batch, global_step, optimizer, the two criteria, the
writer and the log key. -/
def advLossCallArgCount : ℕ := 8

/-! ## Concrete collaborators used by the witnesses -/

/-- A constant model for witnesses: one sample, two positions, vocab 2. -/
def wModel : ModelFn := fun _ _ _ _ => ([[[1, 2], [3, 4]]], [[1, 0]])

/-- A one-sample two-position batch for witnesses. -/
def wBatch : Batch := ⟨[[0, 0]], [[0, 0]], [[1, 1]], [[1, 0]], [[1, 2]],
  [[1, 0]], [0]⟩

/-- A concrete per-token criterion for witnesses: the logit at the target
index. -/
def wCE : TokenCE := fun row t => row.getD t 0

/-- A concrete constant sentence criterion for witnesses. -/
def wSCE : SentCE := fun _ _ => 5

/-- A constant generator for the three-position label witness. -/
def w1Gen : ModelFn := fun _ _ _ _ => ([[[1, 2], [5, 0], [3, 3]]], [])

/-- A one-sample three-position batch for the label witness. -/
def w1Batch : Batch := ⟨[[0]], [[0]], [[0]], [[1, 1, 0]], [[0]], [[1, 1, 1]],
  [0]⟩

/-- A concrete per-token criterion for the label witness. -/
def w1CE : TokenCE := fun row t => row.getD t 0

/-- A concrete constant sentence criterion for the label witness. -/
def w1SCE : SentCE := fun _ _ => 0

/-! ## Theorems settling the claims -/

theorem map_getD_range (l : List ℚ) (d : ℚ) :
    (List.range l.length).map (fun j => l.getD j d) = l := by
  apply List.ext_getElem
  · simp
  · intro i h1 h2
    simp [List.getD_eq_getElem l d h2, List.getElem?_eq_getElem h2]

theorem length_transposeMat (m : Tensor2) :
    (transposeMat m).length = (m.headD []).length := by
  simp [transposeMat]

theorem getElem_transposeMat (m : Tensor2) (j : ℕ)
    (h : j < (transposeMat m).length) :
    (transposeMat m)[j] = m.map (fun row => row.getD j 0) := by
  simp [transposeMat] at h ⊢

theorem getD_map (l : Tensor2) (f : List ℚ → ℚ) (i : ℕ) (d : ℚ)
    (h : i < l.length) : (l.map f).getD i d = f l[i] := by
  rw [List.getD_eq_getElem _ _ (by simpa using h), List.getElem_map]

theorem transposeMat_transposeMat (m : Tensor2) (V : ℕ) (hV : 0 < V)
    (hrect : ∀ r ∈ m, r.length = V) :
    transposeMat (transposeMat m) = m := by
  rcases m with _ | ⟨r, rs⟩
  · rfl
  · have hw : ((r :: rs).headD []).length = V := hrect r (by simp)
    have hlen : (transposeMat (r :: rs)).length = V := by
      rw [length_transposeMat, hw]
    have hhead : ((transposeMat (r :: rs)).headD []).length
        = (r :: rs).length := by
      have h0 : 0 < (transposeMat (r :: rs)).length := by omega
      rcases h : transposeMat (r :: rs) with _ | ⟨c, cs⟩
      · rw [h] at h0; simp at h0
      · have : (transposeMat (r :: rs))[0] = c := by simp [h]
        rw [getElem_transposeMat] at this
        simp [← this]
    apply List.ext_getElem
    · rw [length_transposeMat, hhead]
    · intro i h1 h2
      rw [getElem_transposeMat]
      have hri : ((r :: rs)[i]).length = V := hrect _ (List.getElem_mem h2)
      have hT : transposeMat (r :: rs)
          = (List.range V).map
            (fun j => (r :: rs).map fun row => row.getD j 0) := by
        unfold transposeMat; rw [hw]
      rw [hT, List.map_map]
      have hcong : ∀ j ∈ List.range V,
          ((fun row => row.getD i 0)
            ∘ fun j => (r :: rs).map fun row => row.getD j 0) j
          = ((r :: rs)[i]).getD j 0 := by
        intro j hj
        exact getD_map _ _ _ _ h2
      rw [List.map_congr_left hcong, ← hri, map_getD_range]

theorem zipWith_congr_left {α β γ : Type} (f g : α → β → γ) (l : List α)
    (l' : List β) (h : ∀ a ∈ l, ∀ b, f a b = g a b) :
    List.zipWith f l l' = List.zipWith g l l' := by
  induction l generalizing l' with
  | nil => simp
  | cons a as ih =>
    cases l' with
    | nil => simp
    | cons b bs =>
      simp only [List.zipWith]
      rw [h a (by simp), ih]
      intro x hx b'
      exact h x (by simp [hx]) b'

theorem crossEntNone_transpose12 (ce : TokenCE) (logits : Tensor3)
    (ids : List (List ℕ)) (V : ℕ) (hV : 0 < V)
    (hrect : ∀ mat ∈ logits, ∀ row ∈ mat, row.length = V) :
    crossEntNone ce (transpose12 logits) ids
      = List.zipWith (fun rows tgt => List.zipWith ce rows tgt) logits ids
    := by
  unfold crossEntNone transpose12
  rw [List.zipWith_map_left]
  apply zipWith_congr_left
  intro mat hmat tgt
  rw [transposeMat_transposeMat mat V hV (hrect mat hmat)]

theorem getD_zipWith {α β γ : Type} (f : α → β → γ) (as : List α)
    (bs : List β) (i : ℕ) (d : γ) (ha : i < as.length) (hb : i < bs.length) :
    (List.zipWith f as bs).getD i d = f as[i] bs[i] := by
  rw [List.getD_eq_getElem _ _ (by rw [List.length_zipWith]; omega),
    List.getElem_zipWith]

theorem ite_one_zero_eq_one (c : Prop) [Decidable c] :
    ((if c then (1 : ℕ) else 0) = 1) ↔ c := by
  split <;> simp_all

/-- C8: for every model, batch and pair of criteria, `generator_loss` and
`discriminator_loss` each return as first component the exact sum of the
masked-LM loss — the per-token cross-entropy weighted elementwise by
`masked_weights`, then averaged — and the sentence-classification loss,
together with the raw masked-LM logits and the sentence loss as second and
third components. The hypothesis asks the masked-LM logits to be
rectangular with a positive vocab axis, so that the `transpose(1, 2)`
layout round-trip feeds the per-token criterion exactly the per-position
logit rows. -/
theorem C8_loss_sum_structure (model : ModelFn) (b : Batch) (ce : TokenCE)
    (sce : SentCE) (V : ℕ) (hV : 0 < V)
    (hrect : ∀ mat ∈ (model b.input_ids b.segment_ids b.input_mask
        b.masked_pos).1, ∀ row ∈ mat, row.length = V) :
    generator_loss model b ce sce
      = (mlmLossSpec ce
            (model b.input_ids b.segment_ids b.input_mask b.masked_pos).1
            b.masked_ids b.masked_weights
          + sce (model b.input_ids b.segment_ids b.input_mask b.masked_pos).2
              b.is_next,
         (model b.input_ids b.segment_ids b.input_mask b.masked_pos).1,
         sce (model b.input_ids b.segment_ids b.input_mask b.masked_pos).2
           b.is_next)
    ∧ discriminator_loss model b ce sce
      = (mlmLossSpec ce
            (model b.input_ids b.segment_ids b.input_mask b.masked_pos).1
            b.masked_ids b.masked_weights
          + sce (model b.input_ids b.segment_ids b.input_mask b.masked_pos).2
              b.is_next,
         (model b.input_ids b.segment_ids b.input_mask b.masked_pos).1,
         sce (model b.input_ids b.segment_ids b.input_mask b.masked_pos).2
           b.is_next) := by
  constructor
  · unfold generator_loss mlmLossSpec
    dsimp only
    rw [crossEntNone_transpose12 ce _ b.masked_ids V hV hrect]
  · unfold discriminator_loss mlmLossSpec
    dsimp only
    rw [crossEntNone_transpose12 ce _ b.masked_ids V hV hrect]

/-- C8 witness: at a concrete one-sample batch with vocab 2 both losses
evaluate to masked-LM loss 1 plus sentence loss 5. -/
theorem C8_loss_sum_witness :
    generator_loss wModel wBatch wCE wSCE = (6, [[[1, 2], [3, 4]]], 5)
    ∧ discriminator_loss wModel wBatch wCE wSCE = (6, [[[1, 2], [3, 4]]], 5)
    := by
  have h := C8_loss_sum_structure wModel wBatch wCE wSCE 2 (by norm_num)
    (by decide)
  constructor
  · rw [h.1]
    norm_num [mlmLossSpec, meanAll, elemMul, natMat, wCE, wSCE, wModel,
      wBatch]
  · rw [h.2]
    norm_num [mlmLossSpec, meanAll, elemMul, natMat, wCE, wSCE, wModel,
      wBatch]

/-- C1: in the discriminator sub-step of `AdversarialTrainer.train`, the
derived binary label at each masked position equals 1 exactly when the
arg-max of the generator's masked-LM logits there equals the true masked
id, else 0; the derived label tensor replaces the `masked_ids` field (batch
index 3), and the discriminator loss is computed on that mutated batch. -/
theorem C1_replacement_labels (gen disc : ModelFn) (b : Batch) (ce : TokenCE)
    (sce : SentCE) (bi pi : ℕ)
    (hb1 : bi < (gen b.input_ids b.segment_ids b.input_mask
      b.masked_pos).1.length)
    (hb2 : bi < b.masked_ids.length)
    (hp1 : pi < ((gen b.input_ids b.segment_ids b.input_mask
      b.masked_pos).1.getD bi []).length)
    (hp2 : pi < (b.masked_ids.getD bi []).length) :
    ((((advBatchDataFlow gen disc b ce sce).2.1.masked_ids).getD bi
        []).getD pi 2
      = if argmaxIdx (((gen b.input_ids b.segment_ids b.input_mask
            b.masked_pos).1.getD bi []).getD pi [])
          = (b.masked_ids.getD bi []).getD pi 0 then 1 else 0)
    ∧ (((((advBatchDataFlow gen disc b ce sce).2.1.masked_ids).getD bi
          []).getD pi 2 = 1)
        ↔ argmaxIdx (((gen b.input_ids b.segment_ids b.input_mask
              b.masked_pos).1.getD bi []).getD pi [])
            = (b.masked_ids.getD bi []).getD pi 0)
    ∧ (advBatchDataFlow gen disc b ce sce).2.1.masked_ids
        = isReplacedLabels (generator_loss gen b ce sce).2.1 b.masked_ids
    ∧ (advBatchDataFlow gen disc b ce sce).2.2
        = discriminator_loss disc (advBatchDataFlow gen disc b ce sce).2.1
            ce sce := by
  have hL := List.getD_eq_getElem
    (gen b.input_ids b.segment_ids b.input_mask b.masked_pos).1 [] hb1
  have hM := List.getD_eq_getElem b.masked_ids [] hb2
  rw [hL] at hp1
  rw [hM] at hp2
  have hflow : (advBatchDataFlow gen disc b ce sce).2.1.masked_ids
      = isReplacedLabels
          (gen b.input_ids b.segment_ids b.input_mask b.masked_pos).1
          b.masked_ids := rfl
  have houter : (isReplacedLabels
        (gen b.input_ids b.segment_ids b.input_mask b.masked_pos).1
        b.masked_ids).getD bi []
      = List.zipWith (fun row id => if argmaxIdx row = id then 1 else 0)
          ((gen b.input_ids b.segment_ids b.input_mask b.masked_pos).1[bi])
          (b.masked_ids[bi]) := by
    unfold isReplacedLabels
    exact getD_zipWith _ _ _ bi [] hb1 hb2
  have hinner := getD_zipWith
    (fun row id => if argmaxIdx row = id then 1 else 0)
    ((gen b.input_ids b.segment_ids b.input_mask b.masked_pos).1[bi])
    (b.masked_ids[bi]) pi 2 hp1 hp2
  have hval : (((advBatchDataFlow gen disc b ce sce).2.1.masked_ids).getD bi
        []).getD pi 2
      = if argmaxIdx (((gen b.input_ids b.segment_ids b.input_mask
            b.masked_pos).1.getD bi []).getD pi [])
          = (b.masked_ids.getD bi []).getD pi 0 then 1 else 0 := by
    rw [hflow, houter, hinner, hL, hM,
      List.getD_eq_getElem _ [] hp1, List.getD_eq_getElem _ 0 hp2]
  refine ⟨hval, ?_, hflow, rfl⟩
  rw [hval, ite_one_zero_eq_one]

/-- C1 witness: the spec's hand-constructed three-position example. With
logits rows [1,2], [5,0], [3,3] and true ids 1, 1, 0: position 0 arg-maxes
to 1 (= id, label 1), position 1 arg-maxes to 0 (≠ id, label 0), position 2
ties and keeps index 0 (= id, label 1). -/
theorem C1_replacement_labels_witness :
    ((((advBatchDataFlow w1Gen w1Gen w1Batch w1CE w1SCE).2.1.masked_ids).getD
        0 []).getD 1 2 = 0)
    ∧ isReplacedLabels [[[1, 2], [5, 0], [3, 3]]] [[1, 1, 0]] = [[1, 0, 1]]
    := by
  constructor
  · have h := (C1_replacement_labels w1Gen w1Gen w1Batch w1CE w1SCE 0 1
      (by decide) (by decide) (by decide) (by decide)).1
    rw [h]
    decide
  · decide

theorem setField_eq_none (c : Config) (kv : String × ℚ) :
    Config.setField c kv = none ↔ kv.1 ∉ Config.fieldNames := by
  unfold Config.setField Config.fieldNames
  split_ifs with h1 h2 h3 h4 h5 h6 h7 <;> simp_all

theorem foldlM_setField_none (kvs : List (String × ℚ)) : ∀ c : Config,
    (kvs.foldlM Config.setField c = none
      ↔ ∃ kv ∈ kvs, kv.1 ∉ Config.fieldNames) := by
  induction kvs with
  | nil => intro c; simp
  | cons kv rest ih =>
    intro c
    rcases h : Config.setField c kv with _ | c'
    · simp only [List.foldlM_cons, h, Option.none_bind]
      constructor
      · intro _
        exact ⟨kv, by simp, (setField_eq_none c kv).mp h⟩
      · intro _; rfl
    · have hk : kv.1 ∈ Config.fieldNames := by
        by_contra hk
        rw [← setField_eq_none c kv] at hk
        rw [h] at hk
        exact Option.noConfusion hk
      simp only [List.foldlM_cons, h, Option.bind_eq_bind, Option.some_bind]
      rw [ih c']
      constructor
      · intro ⟨a, ha, hna⟩; exact ⟨a, by simp [ha], hna⟩
      · rintro ⟨a, ha, hna⟩
        rcases List.mem_cons.mp ha with rfl | ha'
        · exact absurd hk hna
        · exact ⟨a, ha', hna⟩

/-- C6 counterexample: the claim states that `Config.from_json` fails at
load time whenever the JSON object is missing any `Config` field. The empty
object is missing every field, yet it loads fine and yields the declared
defaults: `Config` is a `NamedTuple` all of whose fields carry defaults, so
`cls(**d)` only fails on unknown keys, never on absent ones. -/
theorem C6_missing_fields_load :
    Config.from_json []
      = some ⟨3431, 8, 5 / 100000, 10, 1 / 10, 100, 100000⟩ := by rfl

/-- C6 (amended): `Config.from_json` fails exactly when some key of the
JSON object names no `Config` field (extra keys are load-time failures);
fields absent from the object keep their declared defaults; and when the
keys exactly match the `Config` fields the result carries exactly the JSON
values — in particular the spec's example object yields exactly its listed
field values. -/
theorem C6_from_json_amended :
    (∀ kvs : List (String × ℚ),
      (Config.from_json kvs = none ↔ ∃ kv ∈ kvs, kv.1 ∉ Config.fieldNames))
    ∧ Config.from_json [("seed", 1), ("batch_size", 2), ("lr", 1/10),
        ("n_epochs", 1), ("warmup", 1/10), ("save_steps", 1),
        ("total_steps", 3)] = some ⟨1, 2, 1/10, 1, 1/10, 1, 3⟩ :=
  ⟨fun kvs => foldlM_setField_none kvs {}, by rfl⟩

theorem batchSteps_append (a b : List Ev) :
    batchSteps (a ++ b) = batchSteps a ++ batchSteps b := by
  simp [batchSteps]

theorem batchSteps_cons_batch (s : ℕ) (l : List Ev) :
    batchSteps (Ev.batch s :: l) = s :: batchSteps l := by
  simp [batchSteps]

theorem batchSteps_ifsave (c : Prop) [Decidable c] (s : ℕ) :
    batchSteps (if c then [Ev.save s] else []) = [] := by
  split <;> rfl

theorem batchSteps_save_singleton (s : ℕ) : batchSteps [Ev.save s] = [] := rfl

theorem trainerEpoch_term (cfg : RunCfg) (n gs : ℕ)
    (h : cfg.total_steps ≠ 0 ∧ cfg.total_steps < gs + 1) :
    trainerEpoch cfg (n + 1) gs
      = ((Ev.batch (gs + 1) ::
          (if (gs + 1) % cfg.save_steps = 0 then [Ev.save (gs + 1)] else []))
          ++ [Ev.save (gs + 1)], gs + 1, true) := by
  simp only [trainerEpoch]
  rw [if_pos h]

theorem trainerEpoch_cont (cfg : RunCfg) (n gs : ℕ)
    (h : ¬ (cfg.total_steps ≠ 0 ∧ cfg.total_steps < gs + 1)) :
    trainerEpoch cfg (n + 1) gs
      = ((Ev.batch (gs + 1) ::
          (if (gs + 1) % cfg.save_steps = 0 then [Ev.save (gs + 1)] else []))
          ++ (trainerEpoch cfg n (gs + 1)).1,
         (trainerEpoch cfg n (gs + 1)).2.1,
         (trainerEpoch cfg n (gs + 1)).2.2) := by
  simp only [trainerEpoch]
  rw [if_neg h]

theorem trainerEpoch_steps (cfg : RunCfg) : ∀ (n gs : ℕ),
    (trainerEpoch cfg n gs).2.1
        = gs + (batchSteps (trainerEpoch cfg n gs).1).length
    ∧ batchSteps (trainerEpoch cfg n gs).1
        = List.range' (gs + 1) (batchSteps (trainerEpoch cfg n gs).1).length
    := by
  intro n
  induction n with
  | zero => intro gs; exact ⟨rfl, rfl⟩
  | succ n ih =>
    intro gs
    by_cases hterm : cfg.total_steps ≠ 0 ∧ cfg.total_steps < gs + 1
    · rw [trainerEpoch_term cfg n gs hterm]
      simp only [List.cons_append, batchSteps_cons_batch, batchSteps_append,
        batchSteps_ifsave, batchSteps_save_singleton, List.nil_append,
        List.length_cons, List.length_nil]
      refine ⟨by trivial, ?_⟩
      simp [List.range'_succ]
    · rw [trainerEpoch_cont cfg n gs hterm]
      have h1 := (ih (gs + 1)).1
      have h2 := (ih (gs + 1)).2
      simp only [List.cons_append, batchSteps_cons_batch, batchSteps_append,
        batchSteps_ifsave, List.nil_append, List.length_cons]
      constructor
      · omega
      · rw [List.range'_succ]
        rw [← h2]

theorem trainerEpochs_succ (cfg : RunCfg) (nb e gs : ℕ) :
    trainerEpochs cfg nb (e + 1) gs
      = if (trainerEpoch cfg nb gs).2.2 then (trainerEpoch cfg nb gs).1
        else (trainerEpoch cfg nb gs).1
          ++ trainerEpochs cfg nb e (trainerEpoch cfg nb gs).2.1 := by
  simp only [trainerEpochs]

theorem trainerEpochs_steps (cfg : RunCfg) (nb : ℕ) : ∀ (e gs : ℕ),
    batchSteps (trainerEpochs cfg nb e gs)
      = List.range' (gs + 1) (batchSteps (trainerEpochs cfg nb e gs)).length
    := by
  intro e
  induction e with
  | zero => intro gs; exact rfl
  | succ e ih =>
    intro gs
    rw [trainerEpochs_succ]
    by_cases hf : (trainerEpoch cfg nb gs).2.2
    · rw [if_pos hf]
      exact (trainerEpoch_steps cfg nb gs).2
    · rw [if_neg hf]
      rw [batchSteps_append, List.length_append]
      have h1 := (trainerEpoch_steps cfg nb gs).1
      have h2 := (trainerEpoch_steps cfg nb gs).2
      have h3 := ih (trainerEpoch cfg nb gs).2.1
      rw [h2, h3, h1]
      have happ := List.range'_append (gs + 1)
        (batchSteps (trainerEpoch cfg nb gs).1).length
        (batchSteps (trainerEpochs cfg nb e (trainerEpoch cfg nb gs).2.1)).length
        1
      simp only [one_mul, List.length_range'] at happ ⊢
      rw [show gs + 1 + (batchSteps (trainerEpoch cfg nb gs).1).length
          = gs + (batchSteps (trainerEpoch cfg nb gs).1).length + 1 by omega]
        at happ
      rw [h1] at happ
      rw [happ]
      congr 1
      omega

theorem trainerEpoch_saves (cfg : RunCfg) : ∀ (n gs s : ℕ),
    (Ev.save s ∈ (trainerEpoch cfg n gs).1
      ↔ (s ∈ batchSteps (trainerEpoch cfg n gs).1 ∧ s % cfg.save_steps = 0)
        ∨ ((trainerEpoch cfg n gs).2.2 = true
            ∧ s = (trainerEpoch cfg n gs).2.1)) := by
  intro n
  induction n with
  | zero =>
    intro gs s
    simp [trainerEpoch, batchSteps]
  | succ n ih =>
    intro gs s
    by_cases hterm : cfg.total_steps ≠ 0 ∧ cfg.total_steps < gs + 1
    · rw [trainerEpoch_term cfg n gs hterm]
      simp only [List.cons_append, batchSteps_cons_batch, batchSteps_append,
        batchSteps_ifsave, batchSteps_save_singleton, List.nil_append]
      by_cases hs : s = gs + 1
      · subst hs
        simp [List.mem_cons, List.mem_append]
      · constructor
        · intro hmem
          exfalso
          rcases List.mem_cons.mp hmem with h | h
          · exact Ev.noConfusion h
          · rcases List.mem_append.mp h with h | h
            · by_cases hdiv : (gs + 1) % cfg.save_steps = 0
              · rw [if_pos hdiv] at h
                simp at h
                exact hs h
              · rw [if_neg hdiv] at h
                cases h
            · simp at h
              exact hs h
        · intro hmem
          exfalso
          rcases hmem with ⟨h1, _⟩ | ⟨_, h2⟩
          · simp at h1; exact hs h1
          · exact hs h2
    · rw [trainerEpoch_cont cfg n gs hterm]
      have hrest := ih (gs + 1) s
      simp only [List.cons_append, batchSteps_cons_batch, batchSteps_append,
        batchSteps_ifsave, List.nil_append, List.mem_cons, List.mem_append]
      by_cases hs : s = gs + 1
      · subst hs
        by_cases hdiv : (gs + 1) % cfg.save_steps = 0
        · simp [hdiv]
        · simp [hdiv, hrest]
      · by_cases hdiv : (gs + 1) % cfg.save_steps = 0
        · simp only [if_pos hdiv, List.mem_singleton]
          constructor
          · intro h
            rcases h with h | h | h
            · exact absurd h (by intro hh; exact Ev.noConfusion hh)
            · exact absurd h (fun hh => hs (Ev.save.inj hh))
            · rcases (hrest.mp h) with ⟨ha, hb⟩ | hc
              · exact Or.inl ⟨Or.inr ha, hb⟩
              · exact Or.inr hc
          · intro h
            rcases h with ⟨ha, hb⟩ | hc
            · rcases ha with ha | ha
              · exact absurd ha hs
              · exact Or.inr (Or.inr (hrest.mpr (Or.inl ⟨ha, hb⟩)))
            · exact Or.inr (Or.inr (hrest.mpr (Or.inr hc)))
        · simp only [if_neg hdiv, List.not_mem_nil]
          constructor
          · intro h
            rcases h with h | h | h
            · exact absurd h (by intro hh; exact Ev.noConfusion hh)
            · exact absurd h (by simp)
            · rcases (hrest.mp h) with ⟨ha, hb⟩ | hc
              · exact Or.inl ⟨Or.inr ha, hb⟩
              · exact Or.inr hc
          · intro h
            rcases h with ⟨ha, hb⟩ | hc
            · rcases ha with ha | ha
              · exact absurd ha hs
              · exact Or.inr (Or.inr (hrest.mpr (Or.inl ⟨ha, hb⟩)))
            · exact Or.inr (Or.inr (hrest.mpr (Or.inr hc)))

theorem trainerEpochs_saves (cfg : RunCfg) (nb : ℕ) : ∀ (e gs s : ℕ),
    (Ev.save s ∈ trainerEpochs cfg nb e gs
      ↔ (s ∈ batchSteps (trainerEpochs cfg nb e gs) ∧ s % cfg.save_steps = 0)
        ∨ s = gs + (batchSteps (trainerEpochs cfg nb e gs)).length) := by
  intro e
  induction e with
  | zero =>
    intro gs s
    simp [trainerEpochs, batchSteps]
  | succ e ih =>
    intro gs s
    rw [trainerEpochs_succ]
    by_cases hf : (trainerEpoch cfg nb gs).2.2
    · rw [if_pos hf]
      rw [trainerEpoch_saves cfg nb gs s]
      have h1 := (trainerEpoch_steps cfg nb gs).1
      constructor
      · rintro (⟨ha, hb⟩ | ⟨_, hc⟩)
        · exact Or.inl ⟨ha, hb⟩
        · exact Or.inr (by omega)
      · rintro (⟨ha, hb⟩ | hc)
        · exact Or.inl ⟨ha, hb⟩
        · exact Or.inr ⟨hf, by omega⟩
    · rw [if_neg hf]
      have h1 := (trainerEpoch_steps cfg nb gs).1
      have hrec := ih (trainerEpoch cfg nb gs).2.1 s
      have hep := trainerEpoch_saves cfg nb gs s
      rw [List.mem_append, batchSteps_append, List.length_append,
        List.mem_append]
      rw [hep, hrec]
      have hff : (trainerEpoch cfg nb gs).2.2 = false := by
        simpa using hf
      constructor
      · rintro ((⟨ha, hb⟩ | ⟨hflag, _⟩) | (⟨ha, hb⟩ | hc))
        · exact Or.inl ⟨Or.inl ha, hb⟩
        · rw [hff] at hflag; exact Bool.noConfusion hflag
        · exact Or.inl ⟨Or.inr ha, hb⟩
        · exact Or.inr (by omega)
      · rintro (⟨ha | ha, hb⟩ | hc)
        · exact Or.inl (Or.inl ⟨ha, hb⟩)
        · exact Or.inr (Or.inl ⟨ha, hb⟩)
        · exact Or.inr (Or.inr (by omega))

theorem trainerEpoch_batches_pos (cfg : RunCfg) (nb gs : ℕ) (h : 0 < nb) :
    0 < (batchSteps (trainerEpoch cfg nb gs).1).length := by
  rcases nb with _ | n
  · exact absurd h (by simp)
  · by_cases hterm : cfg.total_steps ≠ 0 ∧ cfg.total_steps < gs + 1
    · rw [trainerEpoch_term cfg n gs hterm]
      simp [batchSteps_cons_batch]
    · rw [trainerEpoch_cont cfg n gs hterm]
      simp [batchSteps_cons_batch]

theorem trainerRun_batches_pos (cfg : RunCfg) (nb : ℕ) (h1 : 0 < cfg.n_epochs)
    (h2 : 0 < nb) : 0 < (batchSteps (trainerRun cfg nb)).length := by
  unfold trainerRun
  rcases he : cfg.n_epochs with _ | e
  · omega
  · rw [trainerEpochs_succ]
    have := trainerEpoch_batches_pos cfg nb 0 h2
    by_cases hf : (trainerEpoch cfg nb 0).2.2
    · rw [if_pos hf]; exact this
    · rw [if_neg hf]
      rw [batchSteps_append, List.length_append]
      omega

theorem advEpoch_term (cfg : RunCfg) (n gs : ℕ)
    (h : cfg.total_steps ≠ 0 ∧ cfg.total_steps < gs + 1) :
    advEpoch cfg (n + 1) gs
      = ((Ev.batch (gs + 1) ::
          (if (gs + 1) % cfg.save_steps = 0 then [Ev.save (gs + 1)] else []))
          ++ [Ev.save (gs + 1)], gs + 1, true) := by
  simp only [advEpoch]
  rw [if_pos h]

theorem advEpoch_cont (cfg : RunCfg) (n gs : ℕ)
    (h : ¬ (cfg.total_steps ≠ 0 ∧ cfg.total_steps < gs + 1)) :
    advEpoch cfg (n + 1) gs
      = ((Ev.batch (gs + 1) ::
          (if (gs + 1) % cfg.save_steps = 0 then [Ev.save (gs + 1)] else []))
          ++ (advEpoch cfg n (gs + 1)).1,
         (advEpoch cfg n (gs + 1)).2.1,
         (advEpoch cfg n (gs + 1)).2.2) := by
  simp only [advEpoch]
  rw [if_neg h]

theorem advEpoch_steps (cfg : RunCfg) : ∀ (n gs : ℕ),
    (advEpoch cfg n gs).2.1
        = gs + (batchSteps (advEpoch cfg n gs).1).length
    ∧ batchSteps (advEpoch cfg n gs).1
        = List.range' (gs + 1) (batchSteps (advEpoch cfg n gs).1).length
    := by
  intro n
  induction n with
  | zero => intro gs; exact ⟨rfl, rfl⟩
  | succ n ih =>
    intro gs
    by_cases hterm : cfg.total_steps ≠ 0 ∧ cfg.total_steps < gs + 1
    · rw [advEpoch_term cfg n gs hterm]
      simp only [List.cons_append, batchSteps_cons_batch, batchSteps_append,
        batchSteps_ifsave, batchSteps_save_singleton, List.nil_append,
        List.length_cons, List.length_nil]
      refine ⟨by trivial, ?_⟩
      simp [List.range'_succ]
    · rw [advEpoch_cont cfg n gs hterm]
      have h1 := (ih (gs + 1)).1
      have h2 := (ih (gs + 1)).2
      simp only [List.cons_append, batchSteps_cons_batch, batchSteps_append,
        batchSteps_ifsave, List.nil_append, List.length_cons]
      constructor
      · omega
      · rw [List.range'_succ]
        rw [← h2]

theorem advEpochs_succ (cfg : RunCfg) (nb e gs : ℕ) :
    advEpochs cfg nb (e + 1) gs
      = if (advEpoch cfg nb gs).2.2 then (advEpoch cfg nb gs).1
        else (advEpoch cfg nb gs).1
          ++ advEpochs cfg nb e (advEpoch cfg nb gs).2.1 := by
  simp only [advEpochs]

theorem advEpochs_steps (cfg : RunCfg) (nb : ℕ) : ∀ (e gs : ℕ),
    batchSteps (advEpochs cfg nb e gs)
      = List.range' (gs + 1) (batchSteps (advEpochs cfg nb e gs)).length
    := by
  intro e
  induction e with
  | zero => intro gs; exact rfl
  | succ e ih =>
    intro gs
    rw [advEpochs_succ]
    by_cases hf : (advEpoch cfg nb gs).2.2
    · rw [if_pos hf]
      exact (advEpoch_steps cfg nb gs).2
    · rw [if_neg hf]
      rw [batchSteps_append, List.length_append]
      have h1 := (advEpoch_steps cfg nb gs).1
      have h2 := (advEpoch_steps cfg nb gs).2
      have h3 := ih (advEpoch cfg nb gs).2.1
      rw [h2, h3, h1]
      have happ := List.range'_append (gs + 1)
        (batchSteps (advEpoch cfg nb gs).1).length
        (batchSteps (advEpochs cfg nb e (advEpoch cfg nb gs).2.1)).length 1
      simp only [one_mul, List.length_range'] at happ ⊢
      rw [show gs + 1 + (batchSteps (advEpoch cfg nb gs).1).length
          = gs + (batchSteps (advEpoch cfg nb gs).1).length + 1 by omega]
        at happ
      rw [h1] at happ
      rw [happ]
      congr 1
      omega

/-- C4: in both `Trainer.train` and `AdversarialTrainer.train`,
`global_step` starts at 0, is incremented by exactly 1 per processed batch,
is never reset across epoch boundaries, and after processing n batches
equals n: the step values observed at the batch events of either run's
trace form exactly the sequence 1, 2, ..., n where n is the number of
processed batches. -/
theorem C4_global_step_counts :
    ∀ (cfg : RunCfg) (nb : ℕ),
      batchSteps (trainerRun cfg nb)
        = List.range' 1 (batchSteps (trainerRun cfg nb)).length
      ∧ batchSteps (advRun cfg nb)
        = List.range' 1 (batchSteps (advRun cfg nb)).length := by
  intro cfg nb
  constructor
  · have := trainerEpochs_steps cfg nb cfg.n_epochs 0
    simpa [trainerRun] using this
  · have := advEpochs_steps cfg nb cfg.n_epochs 0
    simpa [advRun] using this

/-- C5: during a `Trainer.train` run with at least one epoch, at least one
batch per epoch and a positive save interval (`save_steps = 0` would raise
`ZeroDivisionError` in Python), a checkpoint is written at step s exactly
when s is the just-incremented `global_step` of some processed batch
divisible by `save_steps`, or s is the final `global_step` of the run —
which, by the second conjunct, is the step of the last processed batch
(whether the run ends by epoch exhaustion or by the `total_steps` early
return). -/
theorem C5_checkpoint_iff (cfg : RunCfg) (nb : ℕ) (h1 : 0 < cfg.n_epochs)
    (h2 : 0 < nb) (_hsave : 0 < cfg.save_steps) (s : ℕ) :
    (Ev.save s ∈ trainerRun cfg nb
      ↔ (s ∈ batchSteps (trainerRun cfg nb) ∧ s % cfg.save_steps = 0)
        ∨ s = (batchSteps (trainerRun cfg nb)).length)
    ∧ (batchSteps (trainerRun cfg nb)).getLast?
        = some (batchSteps (trainerRun cfg nb)).length := by
  constructor
  · have := trainerEpochs_saves cfg nb cfg.n_epochs 0 s
    simpa [trainerRun] using this
  · have hlen := trainerRun_batches_pos cfg nb h1 h2
    have hsteps : batchSteps (trainerRun cfg nb)
        = List.range' 1 (batchSteps (trainerRun cfg nb)).length := by
      have := trainerEpochs_steps cfg nb cfg.n_epochs 0
      simpa [trainerRun] using this
    conv_lhs => rw [hsteps]
    rw [List.getLast?_range']
    rw [if_neg (by omega)]
    congr 1
    omega

/-- C5 witness: with two epochs of three batches, `save_steps = 2` and
`total_steps = 0`, checkpoints occur at steps 2 and 6 but not 3, and the
last processed batch carries step 6. -/
theorem C5_checkpoint_iff_witness :
    (Ev.save 2 ∈ trainerRun ⟨2, 2, 0⟩ 3)
    ∧ (Ev.save 3 ∉ trainerRun ⟨2, 2, 0⟩ 3)
    ∧ (Ev.save 6 ∈ trainerRun ⟨2, 2, 0⟩ 3)
    ∧ (batchSteps (trainerRun ⟨2, 2, 0⟩ 3)).getLast? = some 6 := by
  have h := fun s => C5_checkpoint_iff ⟨2, 2, 0⟩ 3 (by decide) (by decide)
    (by decide) s
  refine ⟨?_, ?_, ?_, ?_⟩
  · exact (h 2).1.mpr (Or.inl (by decide))
  · intro hmem
    have := (h 3).1.mp hmem
    revert this
    decide
  · exact (h 6).1.mpr (Or.inr (by decide))
  · have h6 := (h 6).2
    rw [h6]
    decide

/-- C2: the claim states that when `cfg.total_steps` is non-zero no batch
beyond the `total_steps`-th is processed in either training loop. The
source's own comment at lines 111 and 221 ("save and finish when
global_steps reach total_steps") agrees, but the guard
`total_steps < global_step` fires only after the increment has passed
`total_steps`, so one extra batch is processed. At `total_steps = 1`,
`save_steps = 100`, one epoch of three batches, both loops process two
batches (steps 1 and 2) and save at step 2 on termination. -/
theorem C2_total_steps_off_by_one :
    (batchSteps (trainerRun ⟨1, 100, 1⟩ 3)).length = 2
    ∧ (batchSteps (advRun ⟨1, 100, 1⟩ 3)).length = 2
    ∧ Ev.batch 2 ∈ trainerRun ⟨1, 100, 1⟩ 3
    ∧ Ev.batch 2 ∈ advRun ⟨1, 100, 1⟩ 3
    ∧ Ev.save 2 ∈ trainerRun ⟨1, 100, 1⟩ 3
    ∧ Ev.save 2 ∈ advRun ⟨1, 100, 1⟩ 3 := by decide

/-- C3: the claim states that in the discriminator sub-step the loss is
backpropagated and then the discriminator optimizer is stepped. In the
source (train.py lines 204-211) no `d_loss.backward()` call exists: the
body goes from the discriminator-loss call straight to
`self.d_optimizer.step()` (only `d_loss.mean()` is computed, and only on
the `data_parallel` path, its value discarded). -/
theorem C3_no_discriminator_backward :
    (advTrainBatchActions.map Action.name).contains "d_loss.backward" = false
    ∧ (advTrainBatchActions.map Action.name).contains "discriminator_loss"
        = true
    ∧ (advTrainBatchActions.map Action.name).contains "d_optimizer.step"
        = true
    ∧ (advTrainBatchActions.map Action.name).indexOf "discriminator_loss"
        < (advTrainBatchActions.map Action.name).indexOf "d_optimizer.step"
    := by decide

/-- C7: the claim states that every batch of `Trainer.train` completes the
zero-grad / loss / backward / step / increment / accumulate sequence
without raising. The call at line 97 passes four positional arguments to
`discriminator_loss`, whose signature requires six
(`cross_ent` and `sent_cross_ent` have no defaults), so Python raises
`TypeError` at the call on the first batch — before which the call's
result, a 3-tuple, would additionally be sent `.mean()`. The adversarial
loop's eight-argument calls bind fine. -/
theorem C7_trainer_loss_call_arity :
    callBinds lossSig trainerLossCallArgCount = false
    ∧ callBinds lossSig advLossCallArgCount = true
    ∧ lossSig.required = 6 ∧ trainerLossCallArgCount = 4 := by decide

/-- C9: every call to `AdversarialTrainer.save` and to
`AdversarialTrainer.eval` raises an attribute-access error: both read
`self.model` as their first attribute lookup, and `model` is not among the
attributes `AdversarialTrainer.__init__` sets (it sets `discriminator` and
`generator` instead). -/
theorem C9_save_eval_missing_model :
    firstMissingAttr advInitAttrs advSaveAttrReads = some "model"
    ∧ firstMissingAttr advInitAttrs advEvalAttrReads = some "model"
    ∧ advInitAttrs.contains "model" = false
    ∧ advInitAttrs.contains "discriminator" = true
    ∧ advInitAttrs.contains "generator" = true := by decide

/-- C10: every `AdversarialTrainer.train` call that reaches the first batch
raises an attribute-access error inside that batch: the generator-loss call
evaluates its argument `self.writer` first, an attribute `__init__` never
sets, so only the batch device move and the generator zero-grad complete;
no loss call runs (hence no metrics are emitted) and neither optimizer step
is reached. -/
theorem C10_writer_not_initialized :
    runActions advInitAttrs advTrainBatchActions
      = (["batch_to_device", "g_optimizer.zero_grad"], some "writer")
    ∧ "generator_loss" ∉ (runActions advInitAttrs advTrainBatchActions).1
    ∧ "g_optimizer.step" ∉ (runActions advInitAttrs advTrainBatchActions).1
    ∧ "d_optimizer.step" ∉ (runActions advInitAttrs advTrainBatchActions).1
    ∧ advInitAttrs.contains "writer" = false := by decide

end Electra
